import Mathlib

/-!
Verification of the clock-ani analog clock component.

The repository is a single React component. We embed its logic shallowly:
- `getAngles` mirrors the pure angle calculator.
- `classNames` and friends mirror the minute-tick label classification done
  during render (which samples the wall clock via `new Date()`).
- `runTick` / `fireTimes` mirror the second-aligned ticker and its
  self-rescheduling delay computation under a zero-latency scheduler.
- `loopStep` / `runEvents` give a small event-loop model for the timeout
  fire/cleanup race.
- `rafLoopStep` mirrors the requestAnimationFrame refresher iteration.
- `clockRender` assembles the render-relevant outputs: hand angles, digital
  readout, the root element's aria-label, and the sixty label classes.

Machine arithmetic from JavaScript is modelled over ℚ (the formulas involve
only sums, divisions by constants and small products, all exact here).
The locale time formatter (`Date.prototype.toLocaleTimeString`, a platform
function not present in the repository) is kept abstract as a parameter
`fmt : PointInTime → String`.
-/

/-- Wall-clock time captured at a tick: hour 0-23, minute 0-59, second 0-59,
millisecond 0-999 (the Date components the component reads). -/
structure PointInTime where
  hour : ℕ
  minute : ℕ
  second : ℕ
  millisecond : ℕ
deriving DecidableEq, Repr

/-- Validity of a PointInTime: each field within its calendar range. -/
def PointInTime.Valid (t : PointInTime) : Prop :=
  t.hour < 24 ∧ t.minute < 60 ∧ t.second < 60 ∧ t.millisecond < 1000

instance (t : PointInTime) : Decidable t.Valid := by
  unfold PointInTime.Valid
  infer_instance

/-- The record returned by the angle calculator. -/
structure HandAngles where
  secondsAngle : ℚ
  minutesAngle : ℚ
  hoursAngle : ℚ
deriving DecidableEq, Repr

/-- Embedding of `getAngles(date)` from the source: seconds carries the
millisecond fraction, minutes carries the seconds fraction, hours carries
the minutes fraction of hour-of-12. -/
def getAngles (date : PointInTime) : HandAngles :=
  let ms : ℚ := (date.millisecond : ℚ)
  let seconds : ℚ := (date.second : ℚ) + ms / 1000
  let minutes : ℚ := (date.minute : ℚ) + seconds / 60
  let hours : ℚ := ((date.hour % 12 : ℕ) : ℚ) + minutes / 60
  { secondsAngle := seconds * 6
    minutesAngle := minutes * 6
    hoursAngle := hours * 30 }

/-- The `currentSecond` sampled during render: `getSeconds() === 0 ? 60 : getSeconds()`. -/
def currentSecondLabel (t : PointInTime) : ℕ :=
  if t.second = 0 then 60 else t.second

/-- The `currentMinute` sampled during render: `getMinutes() === 0 ? 60 : getMinutes()`. -/
def currentMinuteLabel (t : PointInTime) : ℕ :=
  if t.minute = 0 then 60 else t.minute

/-- The `currentHour` sampled during render: `getHours() % 12 === 0 ? 12 : getHours() % 12`. -/
def currentHourLabel (t : PointInTime) : ℕ :=
  if t.hour % 12 = 0 then 12 else t.hour % 12

/-- Embedding of the `classNames` expression assigned to minute-tick label `i`
(1-based) when the wall clock reads `t` at render: active-second beats
active-minute beats active-hour beats the plain class. -/
def classNames (t : PointInTime) (i : ℕ) : String :=
  if i = currentSecondLabel t then "svg-minute active-second"
  else if i = currentMinuteLabel t then "svg-minute active-minute"
  else if i = currentHourLabel t then "svg-minute active-hour"
  else "svg-minute"

/-- State visible to the second-aligned ticker: the value last published via
`setNow` (as epoch milliseconds of the captured instant) and the scheduled
instant of the pending timeout, if any. -/
structure TickerState where
  publishedNow : ℕ
  nextFireAt : Option ℕ
deriving DecidableEq, Repr

/-- The delay passed to `setTimeout` in `runTick`: `1000 - Date.now() % 1000`. -/
def nextDelay (nowMillis : ℕ) : ℕ :=
  1000 - nowMillis % 1000

/-- Embedding of one `runTick` execution at epoch-millisecond instant
`nowMillis`: it publishes the captured time via `setNow`, then schedules the
next firing `nextDelay nowMillis` later. -/
def runTick (nowMillis : ℕ) (_s : TickerState) : TickerState :=
  { publishedNow := nowMillis
    nextFireAt := some (nowMillis + nextDelay nowMillis) }

/-- Firing instants of the ticker under a zero-latency scheduler: the first
firing happens at mount time `t0`, and each later firing happens exactly at
the instant the previous firing scheduled. -/
def fireTimes (t0 : ℕ) : ℕ → ℕ
  | 0 => t0
  | k + 1 => fireTimes t0 k + nextDelay (fireTimes t0 k)

/-- Event-loop state for the unmount race: whether a scheduled timeout is
pending (not yet cleared), whether the unmount cleanup has run, and how many
`setNow` state writes the ticker has performed. -/
structure TickerLoopState where
  pending : Bool
  cleanedUp : Bool
  writes : ℕ
deriving DecidableEq, Repr

/-- Events the single-threaded event loop can dispatch: a timeout callback
coming due, or the effect cleanup running at unmount. -/
inductive LoopEvent where
  | timeoutFire
  | unmountCleanup
deriving DecidableEq, Repr

/-- One event-loop step. A timeout callback only runs if the timeout is
still pending (a cleared timeout never dispatches); when it runs it writes
state once and re-arms itself, as `runTick` does. The cleanup
(`clearTimeout(tickRef.current)`) cancels the pending timeout. -/
def loopStep (s : TickerLoopState) : LoopEvent → TickerLoopState
  | .timeoutFire =>
    if s.pending then
      { s with writes := s.writes + 1, pending := true }
    else s
  | .unmountCleanup => { s with pending := false, cleanedUp := true }

/-- Folding a sequence of events through the event loop. -/
def runEvents (s : TickerLoopState) : List LoopEvent → TickerLoopState
  | [] => s
  | e :: es => runEvents (loopStep s e) es

/-- Per-component refs and state: the PointInTime state cell `now` and the
animation-frame handle `rafRef.current`. -/
structure AppRefs where
  now : PointInTime
  rafId : Option ℕ
deriving DecidableEq, Repr

/-- One iteration of the requestAnimationFrame loop: when the `running` flag
is still set it stores the fresh frame handle in `rafRef.current` and
nothing else; when the flag is cleared it returns immediately. -/
def rafLoopStep (running : Bool) (newFrameId : ℕ) (s : AppRefs) : AppRefs :=
  if running then { s with rafId := some newFrameId } else s

/-- Embedding of the ticker's `setNow(new Date())` state write. -/
def setNow (t : PointInTime) (s : AppRefs) : AppRefs :=
  { s with now := t }

/-- Embedding of `formatDigital = (d) => d.toLocaleTimeString()`; the locale
formatter itself is platform-provided, so it is passed in as `fmt`. -/
def formatDigital (fmt : PointInTime → String) (d : PointInTime) : String :=
  fmt d

/-- The sixty minute-tick label classes produced during a render in which
the wall clock (`new Date()` sampled inside the JSX) reads `renderTime`;
entry `idx` holds the class of label `idx + 1`. -/
def renderLabels (renderTime : PointInTime) : List String :=
  (List.range 60).map fun idx => classNames renderTime (idx + 1)

/-- The render-relevant outputs of the component: derived hand angles, the
digital readout, the root clock element's aria-label, and the sixty
minute-tick label classes. -/
structure RenderOutput where
  angles : HandAngles
  digital : String
  rootAriaLabel : String
  labels : List String

/-- Embedding of one render of `App`: `now` is the PointInTime held in
render state, `renderTime` is what `new Date()` returns while the JSX
evaluates. Angles, readout and aria-label derive from `now`; the label
classification samples `renderTime`. -/
def clockRender (fmt : PointInTime → String) (now renderTime : PointInTime) : RenderOutput :=
  { angles := getAngles now
    digital := formatDigital fmt now
    rootAriaLabel := "Analog clock showing " ++ formatDigital fmt now
    labels := renderLabels renderTime }

/-- C1: For every valid PointInTime the angle calculator returns
secondsAngle = (second + millisecond/1000) * 6,
minutesAngle = (minute + (second + millisecond/1000)/60) * 6 and
hoursAngle = ((hour mod 12) + (minute + (second + millisecond/1000)/60)/60) * 30. -/
theorem c1_getAngles_formula (t : PointInTime) (_h : t.Valid) :
    (getAngles t).secondsAngle = ((t.second : ℚ) + (t.millisecond : ℚ) / 1000) * 6 ∧
    (getAngles t).minutesAngle =
      ((t.minute : ℚ) + ((t.second : ℚ) + (t.millisecond : ℚ) / 1000) / 60) * 6 ∧
    (getAngles t).hoursAngle =
      (((t.hour % 12 : ℕ) : ℚ) +
        ((t.minute : ℚ) + ((t.second : ℚ) + (t.millisecond : ℚ) / 1000) / 60) / 60) * 30 :=
  ⟨rfl, rfl, rfl⟩

/-- Witness for C1 at 03:05:09.500. -/
theorem c1_witness :
    (getAngles ⟨3, 5, 9, 500⟩).secondsAngle = (((9 : ℕ) : ℚ) + ((500 : ℕ) : ℚ) / 1000) * 6 ∧
    (getAngles ⟨3, 5, 9, 500⟩).minutesAngle =
      (((5 : ℕ) : ℚ) + (((9 : ℕ) : ℚ) + ((500 : ℕ) : ℚ) / 1000) / 60) * 6 ∧
    (getAngles ⟨3, 5, 9, 500⟩).hoursAngle =
      ((((3 : ℕ) % 12 : ℕ) : ℚ) +
        (((5 : ℕ) : ℚ) + (((9 : ℕ) : ℚ) + ((500 : ℕ) : ℚ) / 1000) / 60) / 60) * 30 :=
  c1_getAngles_formula ⟨3, 5, 9, 500⟩ (by decide)

/-- C2: the hoursAngle of a valid PointInTime lies in the half-open
interval [0, 360). -/
theorem c2_hoursAngle_range (t : PointInTime) (h : t.Valid) :
    0 ≤ (getAngles t).hoursAngle ∧ (getAngles t).hoursAngle < 360 := by
  obtain ⟨_, hm, hs, hms⟩ := h
  have hq1 : ((t.hour % 12 : ℕ) : ℚ) ≤ 11 := by
    have h12 : t.hour % 12 ≤ 11 := by omega
    exact_mod_cast h12
  have hq2 : (t.minute : ℚ) ≤ 59 := by exact_mod_cast Nat.lt_succ_iff.mp hm
  have hq3 : (t.second : ℚ) ≤ 59 := by exact_mod_cast Nat.lt_succ_iff.mp hs
  have hq4 : (t.millisecond : ℚ) ≤ 999 := by exact_mod_cast Nat.lt_succ_iff.mp hms
  have hn1 : (0 : ℚ) ≤ ((t.hour % 12 : ℕ) : ℚ) := Nat.cast_nonneg _
  have hn2 : (0 : ℚ) ≤ (t.minute : ℚ) := Nat.cast_nonneg _
  have hn3 : (0 : ℚ) ≤ (t.second : ℚ) := Nat.cast_nonneg _
  have hn4 : (0 : ℚ) ≤ (t.millisecond : ℚ) := Nat.cast_nonneg _
  constructor
  · show (0 : ℚ) ≤
      (((t.hour % 12 : ℕ) : ℚ) +
        ((t.minute : ℚ) + ((t.second : ℚ) + (t.millisecond : ℚ) / 1000) / 60) / 60) * 30
    linarith
  · show (((t.hour % 12 : ℕ) : ℚ) +
        ((t.minute : ℚ) + ((t.second : ℚ) + (t.millisecond : ℚ) / 1000) / 60) / 60) * 30 < 360
    linarith

/-- Witness for C2 at 03:05:09.500. -/
theorem c2_witness :
    0 ≤ (getAngles ⟨3, 5, 9, 500⟩).hoursAngle ∧ (getAngles ⟨3, 5, 9, 500⟩).hoursAngle < 360 :=
  c2_hoursAngle_range ⟨3, 5, 9, 500⟩ (by decide)

/-- C10: for a valid PointInTime both secondsAngle and minutesAngle lie
strictly in [0, 360); secondsAngle never reaches 360 even with the
millisecond fraction included. -/
theorem c10_seconds_minutes_range (t : PointInTime) (h : t.Valid) :
    (0 ≤ (getAngles t).secondsAngle ∧ (getAngles t).secondsAngle < 360) ∧
    (0 ≤ (getAngles t).minutesAngle ∧ (getAngles t).minutesAngle < 360) := by
  obtain ⟨_, hm, hs, hms⟩ := h
  have hq2 : (t.minute : ℚ) ≤ 59 := by exact_mod_cast Nat.lt_succ_iff.mp hm
  have hq3 : (t.second : ℚ) ≤ 59 := by exact_mod_cast Nat.lt_succ_iff.mp hs
  have hq4 : (t.millisecond : ℚ) ≤ 999 := by exact_mod_cast Nat.lt_succ_iff.mp hms
  have hn2 : (0 : ℚ) ≤ (t.minute : ℚ) := Nat.cast_nonneg _
  have hn3 : (0 : ℚ) ≤ (t.second : ℚ) := Nat.cast_nonneg _
  have hn4 : (0 : ℚ) ≤ (t.millisecond : ℚ) := Nat.cast_nonneg _
  refine ⟨⟨?_, ?_⟩, ?_, ?_⟩
  · show (0 : ℚ) ≤ ((t.second : ℚ) + (t.millisecond : ℚ) / 1000) * 6
    linarith
  · show ((t.second : ℚ) + (t.millisecond : ℚ) / 1000) * 6 < 360
    linarith
  · show (0 : ℚ) ≤ ((t.minute : ℚ) + ((t.second : ℚ) + (t.millisecond : ℚ) / 1000) / 60) * 6
    linarith
  · show ((t.minute : ℚ) + ((t.second : ℚ) + (t.millisecond : ℚ) / 1000) / 60) * 6 < 360
    linarith

/-- Witness for C10 at 23:59:59.999, the extreme valid time. -/
theorem c10_witness :
    (0 ≤ (getAngles ⟨23, 59, 59, 999⟩).secondsAngle ∧
      (getAngles ⟨23, 59, 59, 999⟩).secondsAngle < 360) ∧
    (0 ≤ (getAngles ⟨23, 59, 59, 999⟩).minutesAngle ∧
      (getAngles ⟨23, 59, 59, 999⟩).minutesAngle < 360) :=
  c10_seconds_minutes_range ⟨23, 59, 59, 999⟩ (by decide)

/-- Helper: a label class equals the active-second string exactly when the
index is the sampled current-second label. -/
theorem classNames_second_iff (t : PointInTime) (i : ℕ) :
    classNames t i = "svg-minute active-second" ↔ i = currentSecondLabel t := by
  unfold classNames
  by_cases h1 : i = currentSecondLabel t
  · rw [if_pos h1]
    exact ⟨fun _ => h1, fun _ => rfl⟩
  · rw [if_neg h1]
    constructor
    · intro hEq
      exfalso
      by_cases h2 : i = currentMinuteLabel t
      · rw [if_pos h2] at hEq
        exact absurd hEq (by decide)
      · rw [if_neg h2] at hEq
        by_cases h3 : i = currentHourLabel t
        · rw [if_pos h3] at hEq
          exact absurd hEq (by decide)
        · rw [if_neg h3] at hEq
          exact absurd hEq (by decide)
    · intro hEq
      exact absurd hEq h1

/-- Helper: a label class equals the active-minute string exactly when the
index is the sampled current-minute label and not the current-second label. -/
theorem classNames_minute_iff (t : PointInTime) (i : ℕ) :
    classNames t i = "svg-minute active-minute" ↔
      i ≠ currentSecondLabel t ∧ i = currentMinuteLabel t := by
  unfold classNames
  by_cases h1 : i = currentSecondLabel t
  · rw [if_pos h1]
    constructor
    · intro hEq
      exact absurd hEq (by decide)
    · rintro ⟨hne, _⟩
      exact absurd h1 hne
  · rw [if_neg h1]
    by_cases h2 : i = currentMinuteLabel t
    · rw [if_pos h2]
      exact ⟨fun _ => ⟨h1, h2⟩, fun _ => rfl⟩
    · rw [if_neg h2]
      by_cases h3 : i = currentHourLabel t
      · rw [if_pos h3]
        constructor
        · intro hEq
          exact absurd hEq (by decide)
        · rintro ⟨_, hm⟩
          exact absurd hm h2
      · rw [if_neg h3]
        constructor
        · intro hEq
          exact absurd hEq (by decide)
        · rintro ⟨_, hm⟩
          exact absurd hm h2

/-- Helper: a label class equals the active-hour string exactly when the
index is the sampled current-hour label and neither of the higher-priority
labels. -/
theorem classNames_hour_iff (t : PointInTime) (i : ℕ) :
    classNames t i = "svg-minute active-hour" ↔
      i ≠ currentSecondLabel t ∧ i ≠ currentMinuteLabel t ∧ i = currentHourLabel t := by
  unfold classNames
  by_cases h1 : i = currentSecondLabel t
  · rw [if_pos h1]
    constructor
    · intro hEq
      exact absurd hEq (by decide)
    · rintro ⟨hne, _, _⟩
      exact absurd h1 hne
  · rw [if_neg h1]
    by_cases h2 : i = currentMinuteLabel t
    · rw [if_pos h2]
      constructor
      · intro hEq
        exact absurd hEq (by decide)
      · rintro ⟨_, hne, _⟩
        exact absurd h2 hne
    · rw [if_neg h2]
      by_cases h3 : i = currentHourLabel t
      · rw [if_pos h3]
        exact ⟨fun _ => ⟨h1, h2, h3⟩, fun _ => rfl⟩
      · rw [if_neg h3]
        constructor
        · intro hEq
          exact absurd hEq (by decide)
        · rintro ⟨_, _, hh⟩
          exact absurd hh h3

/-- Helper: the current-second label of a valid time lies among the sixty
tick indices. -/
theorem currentSecondLabel_mem (t : PointInTime) (h : t.Valid) :
    currentSecondLabel t ∈ Finset.Icc 1 60 := by
  obtain ⟨_, _, hs, _⟩ := h
  unfold currentSecondLabel
  rw [Finset.mem_Icc]
  split <;> omega

/-- Helper: the current-minute label of a valid time lies among the sixty
tick indices. -/
theorem currentMinuteLabel_mem (t : PointInTime) (h : t.Valid) :
    currentMinuteLabel t ∈ Finset.Icc 1 60 := by
  obtain ⟨_, hm, _, _⟩ := h
  unfold currentMinuteLabel
  rw [Finset.mem_Icc]
  split <;> omega

/-- Helper: the current-hour label always lies among the sixty tick indices. -/
theorem currentHourLabel_mem (t : PointInTime) :
    currentHourLabel t ∈ Finset.Icc 1 60 := by
  unfold currentHourLabel
  rw [Finset.mem_Icc]
  have h12 : t.hour % 12 < 12 := Nat.mod_lt _ (by omega)
  split <;> omega

/-- C3: among the sixty minute-tick labels exactly one carries
active-second; exactly one carries active-minute unless that index
coincides with the active-second index (priority); exactly one carries
active-hour unless its index coincides with a higher-priority label; every
other label gets the plain class. -/
theorem c3_label_classification (t : PointInTime) (h : t.Valid) :
    (((Finset.Icc 1 60).filter fun i => classNames t i = "svg-minute active-second").card
      = 1) ∧
    (((Finset.Icc 1 60).filter fun i => classNames t i = "svg-minute active-minute").card
      = if currentMinuteLabel t = currentSecondLabel t then 0 else 1) ∧
    (((Finset.Icc 1 60).filter fun i => classNames t i = "svg-minute active-hour").card
      = if currentHourLabel t = currentSecondLabel t ∨ currentHourLabel t = currentMinuteLabel t
        then 0 else 1) ∧
    (∀ i ∈ Finset.Icc 1 60, i ≠ currentSecondLabel t → i ≠ currentMinuteLabel t →
      i ≠ currentHourLabel t → classNames t i = "svg-minute") := by
  refine ⟨?_, ?_, ?_, ?_⟩
  · have hcong : ((Finset.Icc 1 60).filter fun i => classNames t i = "svg-minute active-second")
        = (Finset.Icc 1 60).filter fun i => i = currentSecondLabel t :=
      Finset.filter_congr fun i _ => classNames_second_iff t i
    rw [hcong, Finset.filter_eq', if_pos (currentSecondLabel_mem t h)]
    exact Finset.card_singleton _
  · by_cases hmc : currentMinuteLabel t = currentSecondLabel t
    · rw [if_pos hmc, Finset.card_eq_zero, Finset.filter_eq_empty_iff]
      intro i _ hp
      obtain ⟨hne, heq⟩ := (classNames_minute_iff t i).mp hp
      exact hne (heq.trans hmc)
    · rw [if_neg hmc]
      have hcong : ((Finset.Icc 1 60).filter fun i => classNames t i = "svg-minute active-minute")
          = (Finset.Icc 1 60).filter fun i => i = currentMinuteLabel t := by
        refine Finset.filter_congr fun i _ => ?_
        rw [classNames_minute_iff]
        constructor
        · exact fun hp => hp.2
        · intro hp
          refine ⟨?_, hp⟩
          rw [hp]
          exact hmc
      rw [hcong, Finset.filter_eq', if_pos (currentMinuteLabel_mem t h)]
      exact Finset.card_singleton _
  · by_cases hhc : currentHourLabel t = currentSecondLabel t ∨
        currentHourLabel t = currentMinuteLabel t
    · rw [if_pos hhc, Finset.card_eq_zero, Finset.filter_eq_empty_iff]
      intro i _ hp
      obtain ⟨hns, hnm, heq⟩ := (classNames_hour_iff t i).mp hp
      rcases hhc with hc | hc
      · exact hns (heq.trans hc)
      · exact hnm (heq.trans hc)
    · rw [if_neg hhc]
      push_neg at hhc
      have hcong : ((Finset.Icc 1 60).filter fun i => classNames t i = "svg-minute active-hour")
          = (Finset.Icc 1 60).filter fun i => i = currentHourLabel t := by
        refine Finset.filter_congr fun i _ => ?_
        rw [classNames_hour_iff]
        constructor
        · exact fun hp => hp.2.2
        · intro hp
          refine ⟨?_, ?_, hp⟩
          · rw [hp]
            exact hhc.1
          · rw [hp]
            exact hhc.2
      rw [hcong, Finset.filter_eq', if_pos (currentHourLabel_mem t)]
      exact Finset.card_singleton _
  · intro i _ h1 h2 h3
    unfold classNames
    rw [if_neg h1, if_neg h2, if_neg h3]

/-- Witness for C3 at 03:05:09.500, where the three active labels are
pairwise distinct. -/
theorem c3_witness :
    (((Finset.Icc 1 60).filter
        fun i => classNames ⟨3, 5, 9, 500⟩ i = "svg-minute active-second").card = 1) ∧
    (((Finset.Icc 1 60).filter
        fun i => classNames ⟨3, 5, 9, 500⟩ i = "svg-minute active-minute").card
      = if currentMinuteLabel ⟨3, 5, 9, 500⟩ = currentSecondLabel ⟨3, 5, 9, 500⟩
        then 0 else 1) ∧
    (((Finset.Icc 1 60).filter
        fun i => classNames ⟨3, 5, 9, 500⟩ i = "svg-minute active-hour").card
      = if currentHourLabel ⟨3, 5, 9, 500⟩ = currentSecondLabel ⟨3, 5, 9, 500⟩ ∨
            currentHourLabel ⟨3, 5, 9, 500⟩ = currentMinuteLabel ⟨3, 5, 9, 500⟩
        then 0 else 1) ∧
    (∀ i ∈ Finset.Icc 1 60, i ≠ currentSecondLabel ⟨3, 5, 9, 500⟩ →
      i ≠ currentMinuteLabel ⟨3, 5, 9, 500⟩ → i ≠ currentHourLabel ⟨3, 5, 9, 500⟩ →
      classNames ⟨3, 5, 9, 500⟩ i = "svg-minute") :=
  c3_label_classification ⟨3, 5, 9, 500⟩ (by decide)

/-- C4: each ticker firing publishes the captured current time as the new
state and schedules the next firing exactly 1000 - (nowMillis mod 1000)
milliseconds later. -/
theorem c4_runTick_publish_and_schedule (nowMillis : ℕ) (s : TickerState) :
    (runTick nowMillis s).publishedNow = nowMillis ∧
    (runTick nowMillis s).nextFireAt = some (nowMillis + (1000 - nowMillis % 1000)) :=
  ⟨rfl, rfl⟩

/-- Counterexample to C5: with the mount firing at epoch millisecond 500,
the next firing comes only 500 ms later, strictly less than the 1000 ms the
claim promises as a lower bound. -/
theorem c5_counterexample :
    fireTimes 500 1 - fireTimes 500 0 = 500 ∧
    fireTimes 500 1 - fireTimes 500 0 < 1000 := by
  constructor <;> decide

/-- Helper: every firing after the first lands exactly on a second
boundary (millisecond component zero). -/
theorem fireTimes_succ_mod (t0 j : ℕ) : fireTimes t0 (j + 1) % 1000 = 0 := by
  show (fireTimes t0 j + nextDelay (fireTimes t0 j)) % 1000 = 0
  unfold nextDelay
  omega

/-- C5 amended: in the zero-latency scheduler model, consecutive firings are
separated by 1000 - (previous firing instant mod 1000) milliseconds, which
lies in [1, 1000]; from the second interval on the separation is exactly
1000 ms, but the interval can be shorter than 1000 ms (for instance the one
right after mount). -/
theorem c5_interval_amended (t0 k : ℕ) :
    1 ≤ fireTimes t0 (k + 1) - fireTimes t0 k ∧
    fireTimes t0 (k + 1) - fireTimes t0 k ≤ 1000 ∧
    (1 ≤ k → fireTimes t0 (k + 1) - fireTimes t0 k = 1000) := by
  have hstep : fireTimes t0 (k + 1) = fireTimes t0 k + nextDelay (fireTimes t0 k) := rfl
  have hd : 1 ≤ nextDelay (fireTimes t0 k) ∧ nextDelay (fireTimes t0 k) ≤ 1000 := by
    unfold nextDelay
    omega
  refine ⟨by omega, by omega, ?_⟩
  intro hk
  obtain ⟨j, rfl⟩ : ∃ j, k = j + 1 := ⟨k - 1, by omega⟩
  have hmod : fireTimes t0 (j + 1) % 1000 = 0 := fireTimes_succ_mod t0 j
  have hdelay : nextDelay (fireTimes t0 (j + 1)) = 1000 := by
    unfold nextDelay
    omega
  omega

/-- Witness for C5 amended at mount time 500 and the second interval. -/
theorem c5_amended_witness :
    1 ≤ fireTimes 500 2 - fireTimes 500 1 ∧
    fireTimes 500 2 - fireTimes 500 1 ≤ 1000 ∧
    fireTimes 500 2 - fireTimes 500 1 = 1000 :=
  ⟨(c5_interval_amended 500 1).1, (c5_interval_amended 500 1).2.1,
    (c5_interval_amended 500 1).2.2 (by decide)⟩

/-- Helper: once no timeout is pending, later event-loop activity performs
no further state writes and never re-arms the timeout. -/
theorem runEvents_no_writes_of_not_pending (evs : List LoopEvent) :
    ∀ s : TickerLoopState, s.pending = false → (runEvents s evs).writes = s.writes := by
  induction evs with
  | nil => intro s _; rfl
  | cons e es ih =>
    intro s hp
    cases e with
    | timeoutFire =>
      have hstep : loopStep s .timeoutFire = s := by
        unfold loopStep
        rw [hp]
        rfl
      show (runEvents (loopStep s .timeoutFire) es).writes = s.writes
      rw [hstep]
      exact ih s hp
    | unmountCleanup =>
      show (runEvents (loopStep s .unmountCleanup) es).writes = s.writes
      rw [ih (loopStep s .unmountCleanup) rfl]
      rfl

/-- C6: the unmount cleanup cancels the pending firing, and afterwards no
event-loop activity whatsoever performs a ticker state write: the write
count stays at its value as of cleanup. -/
theorem c6_no_write_after_cleanup (s : TickerLoopState) (evs : List LoopEvent) :
    (loopStep s .unmountCleanup).pending = false ∧
    (runEvents (loopStep s .unmountCleanup) evs).writes = (loopStep s .unmountCleanup).writes :=
  ⟨rfl, runEvents_no_writes_of_not_pending evs _ rfl⟩

/-- Counterexample to C7: at midnight with a representative locale
formatter, the root element's aria-label is "Analog clock showing 12:00:00
AM", which is not equal to the digital readout "12:00:00 AM". -/
theorem c7_counterexample :
    ¬ ((clockRender (fun _ => "12:00:00 AM") ⟨0, 0, 0, 0⟩ ⟨0, 0, 0, 0⟩).rootAriaLabel =
        (clockRender (fun _ => "12:00:00 AM") ⟨0, 0, 0, 0⟩ ⟨0, 0, 0, 0⟩).digital) := by
  decide

/-- C7 amended: at every render the root element's aria-label equals the
fixed text "Analog clock showing " followed by exactly the locale-formatted
digital time shown in the readout for the same render. -/
theorem c7_aria_label_amended (fmt : PointInTime → String) (now renderTime : PointInTime) :
    (clockRender fmt now renderTime).rootAriaLabel =
      "Analog clock showing " ++ (clockRender fmt now renderTime).digital :=
  rfl

/-- Counterexample to C8: two renders holding the identical PointInTime in
render state but performed at different wall-clock instants produce
different label classifications, so the rendered label classes are not a
function of the render state. -/
theorem c8_counterexample :
    ¬ ((clockRender (fun _ => "12:30:45 PM") ⟨12, 30, 45, 0⟩ ⟨0, 0, 0, 0⟩).labels =
        (clockRender (fun _ => "12:30:45 PM") ⟨12, 30, 45, 0⟩ ⟨0, 0, 1, 0⟩).labels) := by
  decide

/-- C8 amended: the label classification is a function of the wall-clock
time sampled by new Date() during render, not of the PointInTime held in
render state: two renders sampling the same wall-clock instant yield
identical label classes whatever state they hold. -/
theorem c8_labels_function_of_sampled_time (fmt : PointInTime → String)
    (now₁ now₂ renderTime : PointInTime) :
    (clockRender fmt now₁ renderTime).labels = (clockRender fmt now₂ renderTime).labels :=
  rfl

/-- C9: an iteration of the frame-rate refresher loop never changes the
PointInTime state cell - it only stores the fresh frame handle - while a
ticker firing is exactly what writes that cell. -/
theorem c9_raf_preserves_state (running : Bool) (newFrameId : ℕ) (s : AppRefs)
    (t : PointInTime) :
    (rafLoopStep running newFrameId s).now = s.now ∧ (setNow t s).now = t := by
  refine ⟨?_, rfl⟩
  unfold rafLoopStep
  split <;> rfl
